import Mathlib

/-!
Verification of the ChapterFlashEMT content normalizer
(`scripts/fix-flashcards.ts`).

The script loads a JSON content store of flashcards, flattens the primary
list and the chapter sub-collections into one sequence, applies two
corrective passes to each card (tag backfill for cards with missing or
empty tags, HTML-tag stripping for question and answer), re-partitions the
sequence back into the original nested shape by original group sizes, and
writes the store back, reporting per-pass change counts.

This file embeds the script's data model and transformation shallowly:
JS fields that may be absent or non-list-shaped become `Option`s, the one
regex used (`/<[^>]+>/g`) becomes an explicit character scanner, and the
top-level try/catch with its single write becomes an `Except` value plus an
effect list.
-/

namespace ChapterFlash

/-- Card record, from the `FlashcardData` interface of the script.
`tags` is an `Option` because the JSON data may lack the field entirely
(the script guards with `!card.tags`); `chapterNumber` is optional in the
interface itself. -/
structure FlashcardData where
  id : String
  question : String
  answer : String
  difficulty : String
  type : String
  tags : Option (List String)
  chapterNumber : Option Nat
  chapterTitle : Option String
deriving DecidableEq, Repr

/-- A character counted as a word character by the JS regex `\b` boundary:
`[A-Za-z0-9_]`. -/
def isWordChar (c : Char) : Bool :=
  let n := c.toNat
  (97 ≤ n && n ≤ 122) || (65 ≤ n && n ≤ 90) || (48 ≤ n && n ≤ 57) || n == 95

/-- The character after a whole-word match must be absent or a non-word
character (the closing `\b`). -/
def boundaryAfter (kw s : List Char) : Bool :=
  match s.drop kw.length with
  | [] => true
  | c :: _ => !isWordChar c

/-- Whole-word match of `kw` at the head of `s`, where `prev` is the
character just before this position (none at the start of the string):
the opening `\b` requires `prev` to be absent or a non-word character. -/
def matchWordAt (kw s : List Char) (prev : Option Char) : Bool :=
  (match prev with
   | none => true
   | some c => !isWordChar c)
  && kw.isPrefixOf s && boundaryAfter kw s

/-- Scan `s` for a whole-word occurrence of `kw`; `prev` is the character
before the current position. -/
def hasWord (kw : List Char) : Option Char → List Char → Bool
  | _, [] => false
  | prev, c :: rest => matchWordAt kw (c :: rest) prev || hasWord kw (some c) rest

/-- `content.match(/\b(kw)\b/)` for a single alternative `kw`. -/
def containsWord (kw : String) (s : String) : Bool :=
  hasWord kw.data none s.data

/-- `text.toLowerCase()` on ASCII text: lowercase each character.
(Char.toLower is the per-character lowering; mapping it over the
character list keeps the definition kernel-computable.) -/
def jsToLower (s : String) : String :=
  ⟨s.data.map Char.toLower⟩

/-- The topic keyword table of `generateDefaultTags`, in source order:
each entry is the alternatives of one `\b(a|b|...)\b` regex together with
the tag pushed when the regex matches. -/
def topicRules : List (List String × String) :=
  [ (["airway", "breathing", "ventilation", "oxygen", "respiratory"], "airway"),
    (["cardiac", "heart", "pulse", "circulation", "blood pressure", "cpr"], "cardiac"),
    (["trauma", "fracture", "injury", "bleeding", "wound", "shock"], "trauma"),
    (["medical", "illness", "disease", "condition", "symptom"], "medical"),
    (["pediatric", "child", "infant", "baby"], "pediatric"),
    (["obstetric", "pregnancy", "birth", "labor", "delivery"], "obstetric"),
    (["geriatric", "elderly", "older adult"], "geriatric"),
    (["assessment", "evaluate", "examine", "check", "vital signs"], "assessment"),
    (["history", "sample", "opqrst", "chief complaint"], "patient-history"),
    (["treatment", "care", "intervention", "procedure"], "treatment"),
    (["medication", "drug", "epinephrine", "aspirin", "nitroglycerin"], "medication"),
    (["splint", "immobilization", "bandage", "dressing"], "immobilization"),
    (["scene", "safety", "hazard", "danger", "bsi"], "scene-safety"),
    (["communication", "report", "radio", "documentation"], "communication"),
    (["transport", "ambulance", "move", "transfer"], "transport"),
    (["equipment", "device", "tool", "apparatus"], "equipment"),
    (["consent", "refusal", "legal", "liability", "negligence"], "legal"),
    (["protocol", "standard", "scope", "guideline"], "protocol") ]

/-- `Array.from(new Set(tags))`: de-duplication keeping the first
occurrence of each element, in order. `seen` collects elements already
emitted. -/
def jsDedupAux (seen : List String) : List String → List String
  | [] => []
  | x :: xs =>
    if x ∈ seen then jsDedupAux seen xs
    else x :: jsDedupAux (x :: seen) xs

/-- `Array.from(new Set(tags))` on the whole list. -/
def jsDedup (l : List String) : List String := jsDedupAux [] l

/-- `generateDefaultTags` of the script: chapter tag when `chapterNumber`
is truthy (present and non-zero), the `type` when truthy (non-empty), the
lowercased `difficulty` when truthy (non-empty), then one topic tag per
matching keyword rule; when exactly three tags are present after the topic
scan, two fallback tags are appended; the result is de-duplicated. -/
def generateDefaultTags (card : FlashcardData) : List String :=
  let chapterPart : List String :=
    match card.chapterNumber with
    | some n => if n = 0 then [] else ["chapter-" ++ toString n]
    | none => []
  let typePart : List String := if card.type = "" then [] else [card.type]
  let diffPart : List String :=
    if card.difficulty = "" then [] else [jsToLower card.difficulty]
  let content := jsToLower (card.question ++ " " ++ card.answer)
  let topicPart : List String :=
    topicRules.filterMap fun r =>
      if r.1.any (fun kw => containsWord kw content) then some r.2 else none
  let tags := chapterPart ++ typePart ++ diffPart ++ topicPart
  let tags := if tags.length = 3 then tags ++ ["emt-basic", "core-knowledge"] else tags
  jsDedup tags

/-- Character scanner implementing `text.replace(/<[^>]+>/g, '')`.
State `none`: outside any candidate tag. State `some buf`: a `<` has been
read and `buf` holds the non-`>` characters read since, in reverse.
On `>` with a non-empty buffer the whole `<...>` span is dropped (the
regex matched); on `>` with an empty buffer the regex fails (`[^>]+` needs
at least one character), so `<>` is kept literally; at the end of input an
open candidate is emitted literally (no closing `>` was found). -/
def stripAux : Option (List Char) → List Char → List Char
  | none, [] => []
  | some buf, [] => '<' :: buf.reverse
  | none, c :: rest =>
    if c = '<' then stripAux (some []) rest
    else c :: stripAux none rest
  | some buf, c :: rest =>
    if c = '>' then
      if buf.isEmpty then '<' :: '>' :: stripAux none rest
      else stripAux none rest
    else stripAux (some (c :: buf)) rest

/-- `stripHtmlTags` of the script: `text.replace(/<[^>]+>/g, '')`. -/
def stripHtmlTags (text : String) : String :=
  ⟨stripAux none text.data⟩

/-- Outcome of the per-card body of the `cards.forEach` loop:
the updated card, whether the tag-backfill branch fired, how many times
`fixedHtmlCount` was incremented for this card (once per changed field,
so 0, 1 or 2), and whether `cardChanged` ended up true. -/
structure FixResult where
  card : FlashcardData
  tagsAdded : Bool
  htmlCount : Nat
  changed : Bool
deriving DecidableEq, Repr

/-- The tag-backfill guard of the script:
`!card.tags || card.tags.length === 0`. -/
def needsTags (c : FlashcardData) : Bool :=
  match c.tags with
  | none => true
  | some ts => ts.isEmpty

/-- The body of `cards.forEach` in `fixFlashcards`: backfill tags when
missing or empty (`!card.tags || card.tags.length === 0`), then strip HTML
from the question, then from the answer, recording which passes changed
the card. -/
def fixCard (c : FlashcardData) : FixResult :=
  let needs : Bool := needsTags c
  let c1 := if needs then { c with tags := some (generateDefaultTags c) } else c
  let cleanQ := stripHtmlTags c1.question
  let qChanged : Bool := !(cleanQ == c1.question)
  let c2 := { c1 with question := cleanQ }
  let cleanA := stripHtmlTags c2.answer
  let aChanged : Bool := !(cleanA == c2.answer)
  let c3 := { c2 with answer := cleanA }
  { card := c3
    tagsAdded := needs
    htmlCount := (if qChanged then 1 else 0) + (if aChanged then 1 else 0)
    changed := needs || qChanged || aChanged }

/-- The transformed card alone. -/
def fixedCard (c : FlashcardData) : FlashcardData := (fixCard c).card

/-- One entry of `jsonData.data.chapterCollections`. `flashcards` is
`none` when the field is absent or not an array (the script's
`collection.flashcards && Array.isArray(collection.flashcards)` guard). -/
structure Collection where
  flashcards : Option (List FlashcardData)
deriving DecidableEq, Repr

/-- `jsonData.data`: either field may be absent or not an array. -/
structure StoreData where
  mainFlashcards : Option (List FlashcardData)
  chapterCollections : Option (List Collection)
deriving DecidableEq, Repr

/-- The parsed store; `data` itself may be absent
(the script reads it with `jsonData.data?.…`). -/
structure Store where
  data : Option StoreData
deriving DecidableEq, Repr

/-- Result of a completed run: the rebuilt store plus the four counters
printed in the summary (`cards.length`, `fixedTagsCount`,
`fixedHtmlCount`, `totalChanges`). -/
structure RunResult where
  store : Store
  total : Nat
  fixedTags : Nat
  fixedHtml : Nat
  totalChanges : Nat
deriving DecidableEq, Repr

/-- The re-partition loop (lines 219-223): for each collection in order,
read its original length, replace its `flashcards` with
`cards.slice(chapterIndex, chapterIndex + chapterLength)` and advance the
index. (`slice(i, i+n)` is `(flat.drop i).take n`.) -/
def sliceAll (flat : List FlashcardData) (start : Nat) :
    List Collection → List Collection
  | [] => []
  | c :: cs =>
    let len := (c.flashcards.getD []).length
    ⟨some ((flat.drop start).take len)⟩ :: sliceAll flat (start + len) cs

/-- The flattened card sequence the script builds before transforming:
`[...mainCards, ...chapterCards]`, where a sub-collection with absent or
non-array `flashcards` contributes nothing. -/
def flatCards (d : StoreData) : List FlashcardData :=
  d.mainFlashcards.getD [] ++
    ((d.chapterCollections.getD []).map fun c => c.flashcards.getD []).flatten

/-- All cards of a store, in flatten order (empty when `data` is absent). -/
def storeCards (store : Store) : List FlashcardData :=
  match store.data with
  | none => []
  | some d => flatCards d

/-- The in-memory body of `fixFlashcards` (lines 158-237), minus console
output: flatten, transform each card, re-partition, and report counters.
`Except.error` marks the positions where the script's own code throws a
`TypeError` inside the `try` (caught at line 246, leading to
`process.exit(1)` with no write): setting `jsonData.data.mainFlashcards`
when `data` is absent (line 215), and reading
`collection.flashcards.length` when a sub-collection's `flashcards` is
absent (line 220). -/
def fixFlashcards (store : Store) : Except String RunResult :=
  match store.data with
  | none => Except.error "TypeError: cannot set properties of undefined"
  | some d =>
    let mainCards := d.mainFlashcards.getD []
    let colls := d.chapterCollections.getD []
    let chapterCards := (colls.map fun c => c.flashcards.getD []).flatten
    let cards := mainCards ++ chapterCards
    let results := cards.map fixCard
    let fixedCards := results.map (·.card)
    let fixedTagsCount := (results.filter (·.tagsAdded)).length
    let fixedHtmlCount := (results.map (·.htmlCount)).sum
    let totalChanges := (results.filter (·.changed)).length
    match d.chapterCollections with
    | none =>
      Except.ok
        { store := ⟨some ⟨some (fixedCards.take mainCards.length), none⟩⟩
          total := cards.length
          fixedTags := fixedTagsCount
          fixedHtml := fixedHtmlCount
          totalChanges := totalChanges }
    | some cs =>
      if cs.all (fun c => c.flashcards.isSome) then
        Except.ok
          { store := ⟨some ⟨some (fixedCards.take mainCards.length),
              some (sliceAll fixedCards mainCards.length cs)⟩⟩
            total := cards.length
            fixedTags := fixedTagsCount
            fixedHtml := fixedHtmlCount
            totalChanges := totalChanges }
      else Except.error "TypeError: cannot read properties of undefined"

/-- Whether stripping changes the question. -/
def qStripped (c : FlashcardData) : Bool :=
  !(stripHtmlTags c.question == c.question)

/-- Whether stripping changes the answer. -/
def aStripped (c : FlashcardData) : Bool :=
  !(stripHtmlTags c.answer == c.answer)

/-- Whether at least one pass changes the card. -/
def cardModified (c : FlashcardData) : Bool :=
  needsTags c || qStripped c || aStripped c

/-- What one collection becomes after a successful run: its original
cards, each transformed, wrapped back into a present list. -/
def collFix (c : Collection) : Collection :=
  ⟨some ((c.flashcards.getD []).map fixedCard)⟩

/-- What `jsonData.data` becomes after a successful run. -/
def fixedStoreData (d : StoreData) : StoreData :=
  { mainFlashcards := some ((d.mainFlashcards.getD []).map fixedCard)
    chapterCollections := d.chapterCollections.map fun cs => cs.map collFix }

/-- The condition under which the re-partition loop does not throw: the
`chapterCollections` field is absent, or every listed sub-collection has
its `flashcards` list present. -/
def collsOk (d : StoreData) : Bool :=
  match d.chapterCollections with
  | none => true
  | some cs => cs.all fun c => c.flashcards.isSome

/-- The externally visible effects of one invocation of the script:
a single whole-file write of the corrected store, or a non-zero process
exit from the top-level catch. -/
inductive Effect where
  | write (s : Store)
  | exitNonZero
deriving DecidableEq, Repr

/-- The whole run (lines 152-250): `input` is the outcome of
`fs.readFileSync` + `JSON.parse` (an exception there is caught by the same
top-level catch). On a parse error or a transform/re-partition error the
catch logs and exits non-zero with no write; otherwise the corrected store
is written exactly once (line 226). -/
def runNormalizer (input : Except String Store) : List Effect :=
  match input with
  | Except.error _ => [Effect.exitNonZero]
  | Except.ok store =>
    match fixFlashcards store with
    | Except.error _ => [Effect.exitNonZero]
    | Except.ok r => [Effect.write r.store]

/-! ### Concrete example data (used by witnesses and counterexamples) -/

/-- A card with empty tags, no chapter, no topic keywords, type
`application` and difficulty `Advanced`: the fallback-tagging example of
the spec. -/
def exCardC5 : FlashcardData :=
  ⟨"c5", "", "", "Advanced", "application", some [], none, none⟩

/-- A card with markup in both its question and its answer. -/
def exCardHtml : FlashcardData :=
  ⟨"h1", "<b>q</b>", "<i>a</i>", "Basic", "definition", some ["t"], none, none⟩

/-- The same card after stripping. -/
def exCardHtmlClean : FlashcardData :=
  ⟨"h1", "q", "a", "Basic", "definition", some ["t"], none, none⟩

/-- A one-card store whose single card has markup in both fields. -/
def exStoreC7 : Store := ⟨some ⟨some [exCardHtml], none⟩⟩

/-- A store with one sub-collection whose `flashcards` list is absent. -/
def exStoreC8 : Store := ⟨some ⟨some [], some [⟨none⟩]⟩⟩

/-- An ordinary well-tagged card. -/
def exCardPlain : FlashcardData :=
  ⟨"1", "What is <b>shock</b>?", "Hypoperfusion", "Basic", "definition",
    some ["trauma"], some 29, some "Bleeding"⟩

/-- The `data` of a small well-shaped store: one primary card and one
sub-collection of two cards. -/
def exStoreData : StoreData :=
  ⟨some [exCardPlain], some [⟨some [exCardPlain, exCardPlain]⟩]⟩

/-- The small well-shaped store itself. -/
def exStore : Store := ⟨some exStoreData⟩

/-- A store whose `data` lacks the `mainFlashcards` list entirely. -/
def exStoreNoMainData : StoreData := ⟨none, none⟩

/-! ### Lemmas about the markup stripper -/

/-- The scanner only ever deletes characters: its output (from the
`none` state) is a sublist of the input, and from a pending state it is a
sublist of the pending `<`, the buffered characters, and the rest. -/
theorem stripAux_sublist : ∀ l : List Char,
    List.Sublist (stripAux none l) l ∧
      ∀ buf, List.Sublist (stripAux (some buf) l) ('<' :: (buf.reverse ++ l)) := by
  intro l
  induction l with
  | nil =>
    constructor
    · simp [stripAux]
    · intro buf
      simp [stripAux]
  | cons c rest ih =>
    constructor
    · by_cases hc : c = '<'
      · subst hc
        simpa [stripAux] using (ih.2 [])
      · simpa [stripAux, hc] using (ih.1.cons₂ c)
    · intro buf
      by_cases hc : c = '>'
      · subst hc
        by_cases hb : buf = []
        · subst hb
          simpa [stripAux] using ((ih.1.cons₂ '>').cons₂ '<')
        · have hbuf : buf.isEmpty = false := by
            cases buf with
            | nil => exact absurd rfl hb
            | cons x xs => rfl
          have heq : stripAux (some buf) ('>' :: rest) = stripAux none rest := by
            simp [stripAux, hbuf]
          rw [heq]
          exact (ih.1.trans (List.sublist_cons_self '>' rest)).trans
            ((List.sublist_append_right buf.reverse ('>' :: rest)).cons '<')
      · have : stripAux (some buf) (c :: rest) = stripAux (some (c :: buf)) rest := by
          simp [stripAux, hc]
        rw [this]
        have h2 := ih.2 (c :: buf)
        simpa [List.append_assoc] using h2

/-- When the remaining input holds no `>`, a pending candidate tag is
never closed: everything is emitted literally. -/
theorem stripAux_no_gt : ∀ (l : List Char), (∀ c ∈ l, c ≠ '>') →
    ∀ buf, stripAux (some buf) l = '<' :: (buf.reverse ++ l) := by
  intro l
  induction l with
  | nil => intro _ buf; simp [stripAux]
  | cons c rest ih =>
    intro h buf
    have hc : c ≠ '>' := h c (by simp)
    have hrest : ∀ x ∈ rest, x ≠ '>' := fun x hx => h x (by simp [hx])
    simp only [stripAux, if_neg hc]
    rw [ih hrest (c :: buf)]
    simp

/-- A string with no `<` at all is left unchanged by the scanner. -/
theorem stripAux_no_lt : ∀ (l : List Char), (∀ c ∈ l, c ≠ '<') →
    stripAux none l = l := by
  intro l
  induction l with
  | nil => simp [stripAux]
  | cons c rest ih =>
    intro h
    have hc : c ≠ '<' := h c (by simp)
    have hrest : ∀ x ∈ rest, x ≠ '<' := fun x hx => h x (by simp [hx])
    simp [stripAux, hc, ih hrest]

/-- The scanner's output is a fixpoint: stripping a second time changes
nothing. Proved simultaneously for both scanner states (for a pending
state the buffered characters are all non-`>` by construction). -/
theorem stripAux_fix : ∀ l : List Char,
    stripAux none (stripAux none l) = stripAux none l ∧
      ∀ buf, (∀ c ∈ buf, c ≠ '>') →
        stripAux none (stripAux (some buf) l) = stripAux (some buf) l := by
  intro l
  induction l with
  | nil =>
    constructor
    · rfl
    · intro buf hbuf
      have hrev : ∀ c ∈ buf.reverse, c ≠ '>' := by
        intro c hc
        exact hbuf c (List.mem_reverse.mp hc)
      show stripAux none ('<' :: buf.reverse) = '<' :: buf.reverse
      have : stripAux none ('<' :: buf.reverse) = stripAux (some []) buf.reverse := by
        simp [stripAux]
      rw [this, stripAux_no_gt buf.reverse hrev []]
      simp
  | cons c rest ih =>
    constructor
    · by_cases hc : c = '<'
      · subst hc
        show stripAux none (stripAux (some []) rest) = stripAux (some []) rest
        exact ih.2 [] (by simp)
      · simp only [stripAux, if_neg hc]
        simp [stripAux, hc, ih.1]
    · intro buf hbuf
      by_cases hc : c = '>'
      · subst hc
        by_cases hb : buf = []
        · subst hb
          simp [stripAux, ih.1]
        · have hbuf2 : buf.isEmpty = false := by
            cases buf with
            | nil => exact absurd rfl hb
            | cons x xs => rfl
          have heq : stripAux (some buf) ('>' :: rest) = stripAux none rest := by
            simp [stripAux, hbuf2]
          rw [heq]
          exact ih.1
      · have heq : stripAux (some buf) (c :: rest) = stripAux (some (c :: buf)) rest := by
          simp [stripAux, hc]
        rw [heq]
        refine ih.2 (c :: buf) ?_
        intro x hx
        rcases List.mem_cons.mp hx with h | h
        · subst h; exact hc
        · exact hbuf x h

/-- Idempotence of `stripHtmlTags` at the string level. -/
theorem stripHtmlTags_idem (s : String) :
    stripHtmlTags (stripHtmlTags s) = stripHtmlTags s := by
  show (⟨stripAux none (stripAux none s.data)⟩ : String) = ⟨stripAux none s.data⟩
  rw [(stripAux_fix s.data).1]

/-! ### Lemmas about the per-card transform -/

/-- De-duplication never turns a non-empty list empty (the first element
always survives). -/
theorem jsDedup_ne_nil (l : List String) (h : l ≠ []) : jsDedup l ≠ [] := by
  cases l with
  | nil => exact absurd rfl h
  | cons x xs => simp [jsDedup, jsDedupAux]

/-- A card with a non-empty `difficulty` always receives at least its
lowercased difficulty tag, so the generated tag set is non-empty. -/
theorem generateDefaultTags_ne_nil (c : FlashcardData) (h : c.difficulty ≠ "") :
    generateDefaultTags c ≠ [] := by
  unfold generateDefaultTags
  apply jsDedup_ne_nil
  split_ifs <;> simp_all

/-- Closed form of the per-card transform: the new card keeps every field
except `tags` (backfilled exactly when missing or empty), `question` and
`answer` (both stripped); the flags record which passes changed it. -/
theorem fixCard_eq (c : FlashcardData) :
    fixCard c =
      { card := { c with
          question := stripHtmlTags c.question
          answer := stripHtmlTags c.answer
          tags := if needsTags c then some (generateDefaultTags c) else c.tags }
        tagsAdded := needsTags c
        htmlCount := (if qStripped c then 1 else 0) + (if aStripped c then 1 else 0)
        changed := cardModified c } := by
  cases hn : needsTags c <;>
    simp [fixCard, hn, qStripped, aStripped, cardModified]

/-- The transformed card in closed form. -/
theorem fixedCard_eq (c : FlashcardData) :
    fixedCard c = { c with
      question := stripHtmlTags c.question
      answer := stripHtmlTags c.answer
      tags := if needsTags c then some (generateDefaultTags c) else c.tags } := by
  rw [fixedCard, fixCard_eq]

/-- A transformed card (of a card with a non-empty difficulty) has a
non-empty tag list. -/
theorem fixedCard_tags_ne_nil (c : FlashcardData) (h : c.difficulty ≠ "") :
    ∃ ts, (fixedCard c).tags = some ts ∧ ts ≠ [] := by
  rw [fixedCard_eq]
  cases hn : needsTags c with
  | true => exact ⟨generateDefaultTags c, by simp, generateDefaultTags_ne_nil c h⟩
  | false =>
    unfold needsTags at hn
    cases hts : c.tags with
    | none => rw [hts] at hn; simp at hn
    | some ts =>
      rw [hts] at hn
      refine ⟨ts, by simp [hts], ?_⟩
      intro hnil
      subst hnil
      simp at hn

/-- A transformed card is a fixpoint of the per-card transform: its tags
are non-empty and its text is already stripped, so a second pass records
no change at all. -/
theorem fixCard_fixedCard (c : FlashcardData) (h : c.difficulty ≠ "") :
    fixCard (fixedCard c) = ⟨fixedCard c, false, 0, false⟩ := by
  have htags : needsTags (fixedCard c) = false := by
    obtain ⟨ts, hts, hne⟩ := fixedCard_tags_ne_nil c h
    unfold needsTags
    rw [hts]
    simpa using hne
  have hq : stripHtmlTags (fixedCard c).question = (fixedCard c).question := by
    rw [fixedCard_eq]
    exact stripHtmlTags_idem c.question
  have ha : stripHtmlTags (fixedCard c).answer = (fixedCard c).answer := by
    rw [fixedCard_eq]
    exact stripHtmlTags_idem c.answer
  rw [fixCard_eq]
  simp [qStripped, aStripped, cardModified, htags, hq, ha]

/-! ### Lemmas about flatten / re-partition -/

/-- Correctness of the re-partition loop: when the flat sequence, from
`start` on, consists of each collection's transformed cards in order
(followed by anything), slicing by original sizes hands every collection
exactly its own transformed cards. -/
theorem sliceAll_eq : ∀ (cs : List Collection) (flat : List FlashcardData)
    (start : Nat) (suffix : List FlashcardData),
    flat.drop start =
      ((cs.map fun c => (c.flashcards.getD []).map fixedCard).flatten) ++ suffix →
    sliceAll flat start cs = cs.map collFix := by
  intro cs
  induction cs with
  | nil => intro flat start suffix h; simp [sliceAll]
  | cons c rest ih =>
    intro flat start suffix h
    rw [List.map_cons, List.flatten_cons, List.append_assoc] at h
    have hlen : ((c.flashcards.getD []).map fixedCard).length =
        (c.flashcards.getD []).length := List.length_map _ _
    have htake : (flat.drop start).take (c.flashcards.getD []).length =
        (c.flashcards.getD []).map fixedCard := by
      rw [h, ← hlen, List.take_left]
    have hdrop : flat.drop (start + (c.flashcards.getD []).length) =
        ((rest.map fun c => (c.flashcards.getD []).map fixedCard).flatten) ++ suffix := by
      rw [← List.drop_drop, h, ← hlen, List.drop_left]
    simp only [sliceAll, htake]
    rw [ih flat (start + (c.flashcards.getD []).length) suffix hdrop]
    simp [collFix]

/-- The card sequence of the rebuilt store is the transformed card
sequence of the input store. -/
theorem flatCards_fixedStoreData (d : StoreData) :
    flatCards (fixedStoreData d) = (flatCards d).map fixedCard := by
  unfold flatCards fixedStoreData
  cases hcc : d.chapterCollections with
  | none => simp
  | some cs =>
    simp only [Option.getD_some, Option.map_some', Option.getD, List.map_append,
      List.map_map]
    rw [List.map_flatten, List.map_map]
    rfl

/-- Master characterization of a successful run: when `data` is present
and no sub-collection's `flashcards` list is missing, the run completes
and returns the rebuilt store together with the three change counters,
each a pure function of the input card sequence. -/
theorem fixFlashcards_eq (d : StoreData) (h : collsOk d = true) :
    fixFlashcards ⟨some d⟩ = Except.ok
      { store := ⟨some (fixedStoreData d)⟩
        total := (flatCards d).length
        fixedTags := ((flatCards d).filter needsTags).length
        fixedHtml := ((flatCards d).map fun c =>
          (if qStripped c then 1 else 0) + (if aStripped c then 1 else 0)).sum
        totalChanges := ((flatCards d).filter cardModified).length } := by
  have hcardf : (fun r : FixResult => r.card) ∘ fixCard = fixedCard := by
    funext c; rfl
  have htagf : ∀ cards : List FlashcardData,
      (cards.map fixCard).filter (fun r => r.tagsAdded) =
        (cards.filter needsTags).map fixCard := by
    intro cards
    rw [List.filter_map]
    congr 1
  have hchgf : ∀ cards : List FlashcardData,
      (cards.map fixCard).filter (fun r => r.changed) =
        (cards.filter cardModified).map fixCard := by
    intro cards
    rw [List.filter_map]
    congr 1
    apply List.filter_congr
    intro c _
    rw [Function.comp_apply, fixCard_eq]
  have hhtmlf : ∀ cards : List FlashcardData,
      (cards.map fixCard).map (fun r => r.htmlCount) =
        cards.map (fun c => (if qStripped c then 1 else 0) + (if aStripped c then 1 else 0)) := by
    intro cards
    rw [List.map_map]
    apply List.map_congr_left
    intro c _
    rw [Function.comp_apply, fixCard_eq]
  have htake : ∀ (main chap : List FlashcardData),
      (((main ++ chap).map fixCard).map (fun r => r.card)).take main.length =
        main.map fixedCard := by
    intro main chap
    rw [List.map_map, hcardf, List.map_append, ← List.length_map main fixedCard,
      List.take_left]
  unfold fixFlashcards
  cases hcc : d.chapterCollections with
  | none =>
    simp only [hcc, Option.getD_none, List.map_nil, List.flatten_nil, List.append_nil]
    rw [htagf, hchgf, hhtmlf]
    have := htake (d.mainFlashcards.getD []) []
    simp only [List.append_nil] at this
    rw [List.map_map, hcardf] at this ⊢
    rw [this]
    unfold fixedStoreData flatCards
    simp [hcc]
  | some cs =>
    have hall : cs.all (fun c => c.flashcards.isSome) = true := by
      unfold collsOk at h
      rw [hcc] at h
      exact h
    simp only [hcc, Option.getD_some, hall, if_pos]
    rw [htagf, hchgf, hhtmlf]
    have hslice : sliceAll (((d.mainFlashcards.getD [] ++
        ((cs.map fun c => c.flashcards.getD []).flatten)).map fixCard).map fun r => r.card)
        (d.mainFlashcards.getD []).length cs = cs.map collFix := by
      apply sliceAll_eq cs _ _ []
      rw [List.map_map, hcardf, List.map_append, ← List.length_map (d.mainFlashcards.getD []) fixedCard,
        List.drop_left, List.append_nil, List.map_flatten, List.map_map]
      rfl
    rw [htake, hslice]
    unfold fixedStoreData flatCards
    simp [hcc, Function.comp_def, List.length_map]

/-- When some sub-collection's `flashcards` list is absent, the
re-partition loop reads `.length` of `undefined` and throws. -/
theorem fixFlashcards_error_of_collsOk_false (d : StoreData) (h : collsOk d = false) :
    fixFlashcards ⟨some d⟩ =
      Except.error "TypeError: cannot read properties of undefined" := by
  unfold collsOk at h
  unfold fixFlashcards
  cases hcc : d.chapterCollections with
  | none => rw [hcc] at h; cases h
  | some cs =>
    rw [hcc] at h
    simp only [] at h
    simp [hcc, h]

/-- A rebuilt store always satisfies the re-partition precondition:
every rebuilt sub-collection has its card list present. -/
theorem collsOk_fixedStoreData (d : StoreData) :
    collsOk (fixedStoreData d) = true := by
  unfold collsOk fixedStoreData
  cases d.chapterCollections with
  | none => rfl
  | some cs => simp [collFix]

/-- A transformed card (of non-empty difficulty) no longer triggers the
backfill guard. -/
theorem needsTags_fixedCard (c : FlashcardData) (h : c.difficulty ≠ "") :
    needsTags (fixedCard c) = false := by
  obtain ⟨ts, hts, hne⟩ := fixedCard_tags_ne_nil c h
  unfold needsTags
  rw [hts]
  simpa using hne

/-- A transformed card's question is already stripped. -/
theorem qStripped_fixedCard (c : FlashcardData) :
    qStripped (fixedCard c) = false := by
  unfold qStripped
  rw [fixedCard_eq]
  show (!(stripHtmlTags (stripHtmlTags c.question) == stripHtmlTags c.question)) = false
  rw [stripHtmlTags_idem]
  simp

/-- A transformed card's answer is already stripped. -/
theorem aStripped_fixedCard (c : FlashcardData) :
    aStripped (fixedCard c) = false := by
  unfold aStripped
  rw [fixedCard_eq]
  show (!(stripHtmlTags (stripHtmlTags c.answer) == stripHtmlTags c.answer)) = false
  rw [stripHtmlTags_idem]
  simp

/-- A second pass records no change on a transformed card. -/
theorem cardModified_fixedCard (c : FlashcardData) (h : c.difficulty ≠ "") :
    cardModified (fixedCard c) = false := by
  unfold cardModified
  rw [needsTags_fixedCard c h, qStripped_fixedCard, aStripped_fixedCard]
  rfl

/-- The per-card transform is idempotent (for non-empty difficulty). -/
theorem fixedCard_idem (c : FlashcardData) (h : c.difficulty ≠ "") :
    fixedCard (fixedCard c) = fixedCard c := by
  show (fixCard (fixedCard c)).card = fixedCard c
  rw [fixCard_fixedCard c h]

/-- Membership in the flat sequence, from the primary list. -/
theorem mem_flatCards_of_mem_main (d : StoreData) (c : FlashcardData)
    (h : c ∈ d.mainFlashcards.getD []) : c ∈ flatCards d := by
  unfold flatCards
  exact List.mem_append_left _ h

/-- Membership in the flat sequence, from a sub-collection. -/
theorem mem_flatCards_of_mem_coll (d : StoreData) (cs : List Collection)
    (col : Collection) (c : FlashcardData) (hcc : d.chapterCollections = some cs)
    (hcol : col ∈ cs) (h : c ∈ col.flashcards.getD []) : c ∈ flatCards d := by
  unfold flatCards
  apply List.mem_append_right
  rw [hcc]
  exact List.mem_flatten.mpr ⟨col.flashcards.getD [], List.mem_map_of_mem _ hcol, h⟩

/-- Rebuilding twice is rebuilding once, provided every card has a
non-empty difficulty. -/
theorem fixedStoreData_idem (d : StoreData)
    (hdiff : ∀ c ∈ flatCards d, c.difficulty ≠ "") :
    fixedStoreData (fixedStoreData d) = fixedStoreData d := by
  have hmain : ((d.mainFlashcards.getD []).map fixedCard).map fixedCard =
      (d.mainFlashcards.getD []).map fixedCard := by
    rw [List.map_map]
    apply List.map_congr_left
    intro c hc
    exact fixedCard_idem c (hdiff c (mem_flatCards_of_mem_main d c hc))
  unfold fixedStoreData
  cases hcc : d.chapterCollections with
  | none =>
    simp only [Option.map_none', Option.getD_some, StoreData.mk.injEq,
      Option.some.injEq]
    exact ⟨hmain, trivial⟩
  | some cs =>
    have hcoll : ∀ col ∈ cs, collFix (collFix col) = collFix col := by
      intro col hcol
      simp only [collFix, Option.getD_some, List.map_map, Collection.mk.injEq,
        Option.some.injEq]
      apply List.map_congr_left
      intro c hc
      exact fixedCard_idem c (hdiff c (mem_flatCards_of_mem_coll d cs col c hcc hcol hc))
    simp only [Option.map_some', Option.getD_some, StoreData.mk.injEq,
      Option.some.injEq]
    refine ⟨hmain, ?_⟩
    rw [List.map_map]
    apply List.map_congr_left
    intro col hcol
    exact hcoll col hcol

/-! ### The claims -/

/-- C1: For every content store (its `data` present and every
sub-collection's card list present, as the data model requires),
normalization preserves structure and cardinality: the rebuilt primary
list is the original primary list mapped through the per-card transform
(same size, same order), each sub-collection is its original card list
mapped likewise (so each group keeps its size and relative order), the
total card count is unchanged, and the transform touches only `question`,
`answer` and `tags` — `id`, `difficulty`, `type`, `chapterNumber` and
`chapterTitle` are preserved on every card. -/
theorem claim_c1_structure_preserved (store : Store) (d : StoreData)
    (hd : store.data = some d) (hok : collsOk d = true) :
    ∃ r : RunResult, fixFlashcards store = Except.ok r ∧
      r.store.data = some (fixedStoreData d) ∧
      (fixedStoreData d).mainFlashcards =
        some ((d.mainFlashcards.getD []).map fixedCard) ∧
      (fixedStoreData d).chapterCollections =
        d.chapterCollections.map (fun cs => cs.map collFix) ∧
      (∀ col : Collection, (collFix col).flashcards =
        some ((col.flashcards.getD []).map fixedCard)) ∧
      (∀ col : Collection,
        ((collFix col).flashcards.getD []).length = (col.flashcards.getD []).length) ∧
      (storeCards r.store).length = (storeCards store).length ∧
      (∀ c : FlashcardData, (fixedCard c).id = c.id ∧
        (fixedCard c).difficulty = c.difficulty ∧ (fixedCard c).type = c.type ∧
        (fixedCard c).chapterNumber = c.chapterNumber ∧
        (fixedCard c).chapterTitle = c.chapterTitle) := by
  have hstore : store = ⟨some d⟩ := congrArg Store.mk hd
  subst hstore
  refine ⟨_, fixFlashcards_eq d hok, rfl, rfl, rfl, fun col => rfl, ?_, ?_, ?_⟩
  · intro col
    simp [collFix]
  · simp [storeCards, flatCards_fixedStoreData]
  · intro c
    rw [fixedCard_eq]
    exact ⟨rfl, rfl, rfl, rfl, rfl⟩

/-- Witness for C1 at a concrete store with one primary card and one
two-card sub-collection. -/
theorem claim_c1_structure_preserved_witness :
    ∃ r : RunResult, fixFlashcards exStore = Except.ok r ∧
      r.store.data = some (fixedStoreData exStoreData) ∧
      (fixedStoreData exStoreData).mainFlashcards =
        some ((exStoreData.mainFlashcards.getD []).map fixedCard) ∧
      (fixedStoreData exStoreData).chapterCollections =
        exStoreData.chapterCollections.map (fun cs => cs.map collFix) ∧
      (∀ col : Collection, (collFix col).flashcards =
        some ((col.flashcards.getD []).map fixedCard)) ∧
      (∀ col : Collection,
        ((collFix col).flashcards.getD []).length = (col.flashcards.getD []).length) ∧
      (storeCards r.store).length = (storeCards exStore).length ∧
      (∀ c : FlashcardData, (fixedCard c).id = c.id ∧
        (fixedCard c).difficulty = c.difficulty ∧ (fixedCard c).type = c.type ∧
        (fixedCard c).chapterNumber = c.chapterNumber ∧
        (fixedCard c).chapterTitle = c.chapterTitle) :=
  claim_c1_structure_preserved exStore exStoreData rfl (by decide)

/-- C2: After a successful normalization of a store whose cards carry a
difficulty from the data model's enumeration, every card in the output
store has a non-empty tag list; and for every card that triggers the
backfill guard, the new tags are exactly `generateDefaultTags` of that
card alone. -/
theorem claim_c2_tags_nonempty (store : Store) (d : StoreData)
    (hd : store.data = some d) (hok : collsOk d = true)
    (hdiff : ∀ c ∈ storeCards store,
      c.difficulty ∈ (["Basic", "Intermediate", "Advanced"] : List String)) :
    ∃ r : RunResult, fixFlashcards store = Except.ok r ∧
      (∀ card ∈ storeCards r.store, ∃ ts, card.tags = some ts ∧ ts ≠ []) ∧
      (∀ c : FlashcardData, needsTags c = true →
        (fixedCard c).tags = some (generateDefaultTags c)) := by
  have hstore : store = ⟨some d⟩ := congrArg Store.mk hd
  subst hstore
  have hdne : ∀ c ∈ flatCards d, c.difficulty ≠ "" := by
    intro c hc
    have hmem := hdiff c hc
    simp only [List.mem_cons, List.not_mem_nil, or_false] at hmem
    rcases hmem with h1 | h1 | h1 <;> rw [h1] <;> decide
  refine ⟨_, fixFlashcards_eq d hok, ?_, ?_⟩
  · intro card hcard
    simp only [storeCards, flatCards_fixedStoreData] at hcard
    obtain ⟨c, hc, rfl⟩ := List.mem_map.mp hcard
    exact fixedCard_tags_ne_nil c (hdne c hc)
  · intro c hneeds
    rw [fixedCard_eq]
    simp [hneeds]

/-- Witness for C2 at the same concrete store. -/
theorem claim_c2_tags_nonempty_witness :
    ∃ r : RunResult, fixFlashcards exStore = Except.ok r ∧
      (∀ card ∈ storeCards r.store, ∃ ts, card.tags = some ts ∧ ts ≠ []) ∧
      (∀ c : FlashcardData, needsTags c = true →
        (fixedCard c).tags = some (generateDefaultTags c)) :=
  claim_c2_tags_nonempty exStore exStoreData rfl (by decide) (by decide)

/-- C3: The markup stripper turns `"What is <b>shock</b>?"` into
`"What is shock?"`; it only ever deletes characters (the output is a
sublist of the input, so all surviving characters keep their content and
order); and a string containing no `<` is returned unchanged. -/
theorem claim_c3_markup_strip :
    stripHtmlTags "What is <b>shock</b>?" = "What is shock?" ∧
    (∀ s : String, List.Sublist (stripHtmlTags s).data s.data) ∧
    (∀ s : String, (∀ c ∈ s.data, c ≠ '<') → stripHtmlTags s = s) := by
  refine ⟨by decide, ?_, ?_⟩
  · intro s
    exact (stripAux_sublist s.data).1
  · intro s h
    show (⟨stripAux none s.data⟩ : String) = s
    rw [stripAux_no_lt s.data h]

/-- Witness for C3's no-markup clause at a concrete markup-free string. -/
theorem claim_c3_markup_strip_witness :
    stripHtmlTags "Plain question with no markup" = "Plain question with no markup" :=
  claim_c3_markup_strip.2.2 "Plain question with no markup" (by decide)

/-- C4: The normalizer is idempotent: running it again on the output of a
successful run (over data-model cards, whose difficulty comes from the
enumeration) succeeds, rebuilds the identical store, and reports zero
cards with tags added, zero markup removals and zero modified cards; in
particular stripping already-stripped text is a no-op. -/
theorem claim_c4_idempotent (store : Store) (d : StoreData)
    (hd : store.data = some d) (hok : collsOk d = true)
    (hdiff : ∀ c ∈ storeCards store,
      c.difficulty ∈ (["Basic", "Intermediate", "Advanced"] : List String)) :
    ∃ r r2 : RunResult, fixFlashcards store = Except.ok r ∧
      fixFlashcards r.store = Except.ok r2 ∧
      r2.store = r.store ∧
      r2.fixedTags = 0 ∧ r2.fixedHtml = 0 ∧ r2.totalChanges = 0 ∧
      (∀ s : String, stripHtmlTags (stripHtmlTags s) = stripHtmlTags s) := by
  have hstore : store = ⟨some d⟩ := congrArg Store.mk hd
  subst hstore
  have hdne : ∀ c ∈ flatCards d, c.difficulty ≠ "" := by
    intro c hc
    have hmem := hdiff c hc
    simp only [List.mem_cons, List.not_mem_nil, or_false] at hmem
    rcases hmem with h1 | h1 | h1 <;> rw [h1] <;> decide
  refine ⟨_, _, fixFlashcards_eq d hok,
    fixFlashcards_eq (fixedStoreData d) (collsOk_fixedStoreData d), ?_, ?_, ?_, ?_,
    fun s => stripHtmlTags_idem s⟩
  · show (⟨some (fixedStoreData (fixedStoreData d))⟩ : Store) = ⟨some (fixedStoreData d)⟩
    rw [fixedStoreData_idem d hdne]
  · show ((flatCards (fixedStoreData d)).filter needsTags).length = 0
    rw [flatCards_fixedStoreData]
    have hnil : ((flatCards d).map fixedCard).filter needsTags = [] := by
      rw [List.filter_eq_nil_iff]
      intro a ha
      obtain ⟨c, hc, rfl⟩ := List.mem_map.mp ha
      simp [needsTags_fixedCard c (hdne c hc)]
    rw [hnil]
    rfl
  · show (((flatCards (fixedStoreData d)).map fun c =>
      (if qStripped c then 1 else 0) + (if aStripped c then 1 else 0)).sum) = 0
    rw [flatCards_fixedStoreData]
    apply List.sum_eq_zero
    intro x hx
    obtain ⟨y, hy, rfl⟩ := List.mem_map.mp hx
    obtain ⟨c, hc, rfl⟩ := List.mem_map.mp hy
    rw [qStripped_fixedCard, aStripped_fixedCard]
    rfl
  · show ((flatCards (fixedStoreData d)).filter cardModified).length = 0
    rw [flatCards_fixedStoreData]
    have hnil : ((flatCards d).map fixedCard).filter cardModified = [] := by
      rw [List.filter_eq_nil_iff]
      intro a ha
      obtain ⟨c, hc, rfl⟩ := List.mem_map.mp ha
      simp [cardModified_fixedCard c (hdne c hc)]
    rw [hnil]
    rfl

/-- Witness for C4 at the same concrete store. -/
theorem claim_c4_idempotent_witness :
    ∃ r r2 : RunResult, fixFlashcards exStore = Except.ok r ∧
      fixFlashcards r.store = Except.ok r2 ∧
      r2.store = r.store ∧
      r2.fixedTags = 0 ∧ r2.fixedHtml = 0 ∧ r2.totalChanges = 0 ∧
      (∀ s : String, stripHtmlTags (stripHtmlTags s) = stripHtmlTags s) :=
  claim_c4_idempotent exStore exStoreData rfl (by decide) (by decide)

/-- C5: the code violates this claim. For a card with empty tags, no
chapter number, no topic-keyword match, type `application` and difficulty
`Advanced`, the guard `tags.length === 3` does not fire (only two
structural tags are present without a chapter), so contrary to the claim
and to the script's own comment (`If no specific tags found, add generic
ones`), no fallback tags are appended: the generated set is exactly
`["application", "advanced"]` and does not contain `emt-basic`. -/
theorem claim_c5_fallback_not_applied :
    generateDefaultTags exCardC5 = ["application", "advanced"] ∧
    (fixCard exCardC5).card.tags = some ["application", "advanced"] ∧
    ¬ ("emt-basic" ∈ generateDefaultTags exCardC5) := by decide

/-- C6: A card whose input tag list is present and non-empty keeps it
verbatim: the backfill pass neither fires nor alters the list. -/
theorem claim_c6_pretagged_untouched (c : FlashcardData) (ts : List String)
    (hts : c.tags = some ts) (hne : ts ≠ []) :
    (fixCard c).card.tags = some ts ∧ (fixCard c).tagsAdded = false := by
  have hn : needsTags c = false := by
    unfold needsTags
    rw [hts]
    simpa using hne
  rw [fixCard_eq]
  simp [hn, hts]

/-- Witness for C6 at a concrete pre-tagged card. -/
theorem claim_c6_pretagged_untouched_witness :
    (fixCard exCardPlain).card.tags = some ["trauma"] ∧
    (fixCard exCardPlain).tagsAdded = false :=
  claim_c6_pretagged_untouched exCardPlain ["trauma"] rfl (by decide)

/-- C7 counterexample: a one-card store whose single card has markup in
both its question and its answer. The claim says the markup-removal count
equals the number of cards from which markup was removed, which is 1 here
(`total = 1`), but the run reports `fixedHtml = 2`: the counter is
incremented once per changed field, not once per card. -/
theorem claim_c7_counterexample :
    fixFlashcards exStoreC7 =
      Except.ok ⟨⟨some ⟨some [exCardHtmlClean], none⟩⟩, 1, 0, 2, 1⟩ := by rfl

/-- C7 (amended): the run summary's counters, characterized per card:
`total` is the number of cards processed; the tags-added count is the
number of cards whose input tags were missing or empty; the markup count
is the number of changed fields, one increment per field (question and
answer counted separately, so up to two per card); the modified count is
the number of cards changed by at least one pass. -/
theorem claim_c7_amended_counts (store : Store) (d : StoreData)
    (hd : store.data = some d) (hok : collsOk d = true) :
    ∃ r : RunResult, fixFlashcards store = Except.ok r ∧
      r.total = (storeCards store).length ∧
      r.fixedTags = ((storeCards store).filter needsTags).length ∧
      r.fixedHtml = ((storeCards store).map fun c =>
        (if qStripped c then 1 else 0) + (if aStripped c then 1 else 0)).sum ∧
      r.totalChanges = ((storeCards store).filter cardModified).length := by
  have hstore : store = ⟨some d⟩ := congrArg Store.mk hd
  subst hstore
  exact ⟨_, fixFlashcards_eq d hok, rfl, rfl, rfl, rfl⟩

/-- Witness for the amended C7 at the double-markup store: the per-field
characterization gives the observed counters there. -/
theorem claim_c7_amended_counts_witness :
    ∃ r : RunResult, fixFlashcards exStoreC7 = Except.ok r ∧
      r.total = (storeCards exStoreC7).length ∧
      r.fixedTags = ((storeCards exStoreC7).filter needsTags).length ∧
      r.fixedHtml = ((storeCards exStoreC7).map fun c =>
        (if qStripped c then 1 else 0) + (if aStripped c then 1 else 0)).sum ∧
      r.totalChanges = ((storeCards exStoreC7).filter cardModified).length :=
  claim_c7_amended_counts exStoreC7 ⟨some [exCardHtml], none⟩ rfl (by decide)

/-- C8 counterexample: a store with one sub-collection whose `flashcards`
list is absent. The claim says the run substitutes an empty list and
completes; in fact the re-partition loop reads `.length` of `undefined`,
throws, and the run aborts without writing. -/
theorem claim_c8_counterexample :
    fixFlashcards exStoreC8 =
      Except.error "TypeError: cannot read properties of undefined" := by rfl

/-- C8 (amended): absence of the primary `mainFlashcards` list or of the
`chapterCollections` list is tolerated — the flatten step substitutes an
empty list, the run completes, and the sections present are normalized
(`mainFlashcards` is rebuilt as an empty list when it was absent, and an
absent `chapterCollections` stays absent); but when any listed
sub-collection's own `flashcards` list is absent, the re-partition step
throws and the run aborts with an error instead of completing. -/
theorem claim_c8_amended_defensive (d : StoreData) :
    (collsOk d = true → ∃ r : RunResult, fixFlashcards ⟨some d⟩ = Except.ok r ∧
      r.store.data = some (fixedStoreData d) ∧
      (d.mainFlashcards = none → (fixedStoreData d).mainFlashcards = some []) ∧
      (d.chapterCollections = none →
        (fixedStoreData d).chapterCollections = none)) ∧
    (collsOk d = false → fixFlashcards ⟨some d⟩ =
      Except.error "TypeError: cannot read properties of undefined") := by
  constructor
  · intro hok
    refine ⟨_, fixFlashcards_eq d hok, rfl, ?_, ?_⟩
    · intro hm
      unfold fixedStoreData
      rw [hm]
      rfl
    · intro hc
      unfold fixedStoreData
      rw [hc]
      rfl
  · intro hbad
    exact fixFlashcards_error_of_collsOk_false d hbad

/-- Witness for the amended C8 at a store whose `data` has neither a
`mainFlashcards` list nor a `chapterCollections` list. -/
theorem claim_c8_amended_defensive_witness :
    ∃ r : RunResult, fixFlashcards ⟨some exStoreNoMainData⟩ = Except.ok r ∧
      r.store.data = some (fixedStoreData exStoreNoMainData) ∧
      (exStoreNoMainData.mainFlashcards = none →
        (fixedStoreData exStoreNoMainData).mainFlashcards = some []) ∧
      (exStoreNoMainData.chapterCollections = none →
        (fixedStoreData exStoreNoMainData).chapterCollections = none) :=
  (claim_c8_amended_defensive exStoreNoMainData).1 rfl

/-- C9: One invocation produces exactly one external effect: either the
corrected store is written once (successful parse, transform and
re-partition), or the process exits non-zero and no write to the store
occurs — there is no input on which a write and a failure both happen, and
no input on which more than one write happens. -/
theorem claim_c9_atomic_write (input : Except String Store) :
    (runNormalizer input).length = 1 ∧
    ((∃ st, runNormalizer input = [Effect.write st]) ∨
      (runNormalizer input = [Effect.exitNonZero] ∧
        ∀ st, Effect.write st ∉ runNormalizer input)) := by
  cases input with
  | error e =>
    refine ⟨rfl, Or.inr ⟨rfl, ?_⟩⟩
    intro st h
    simp [runNormalizer] at h
  | ok store =>
    cases hf : fixFlashcards store with
    | error e =>
      have hr : runNormalizer (Except.ok store) = [Effect.exitNonZero] := by
        show (match fixFlashcards store with
          | Except.error _ => [Effect.exitNonZero]
          | Except.ok r => [Effect.write r.store]) = [Effect.exitNonZero]
        rw [hf]
      rw [hr]
      refine ⟨rfl, Or.inr ⟨rfl, ?_⟩⟩
      intro st h
      simp at h
    | ok r =>
      have hr : runNormalizer (Except.ok store) = [Effect.write r.store] := by
        show (match fixFlashcards store with
          | Except.error _ => [Effect.exitNonZero]
          | Except.ok r => [Effect.write r.store]) = [Effect.write r.store]
        rw [hf]
      rw [hr]
      exact ⟨rfl, Or.inl ⟨r.store, rfl⟩⟩

/-- C10: A card with an absent tags field is handled exactly like a card
with a present-but-empty tag list: the transform gives both the same
result, the absent field is replaced by the generated default tags, and
the card is counted as having had tags added. -/
theorem claim_c10_absent_tags_backfilled (c : FlashcardData) :
    fixCard { c with tags := none } = fixCard { c with tags := some [] } ∧
    (fixCard { c with tags := none }).card.tags =
      some (generateDefaultTags { c with tags := none }) ∧
    (fixCard { c with tags := none }).tagsAdded = true := by
  refine ⟨rfl, ?_, rfl⟩
  rw [fixCard_eq]
  simp [needsTags]

end ChapterFlash
